/-
Verification of the sse-gateway repository's core against its specification.

The repository contains two parallel implementations of the gateway core:
  * `crates/sse-gateway/` (primary library crate), modelled here in namespace `Crates`;
  * `src/` (standalone binary variant), modelled here in namespace `SrcVar`.
Shared data types (the SSE event model, stream-id strings) are identical in
both variants and are modelled once at top level.

Machine integers (`u64`, `usize`, millisecond timestamps) are modelled as `Nat`:
none of the verified operations can overflow or produce negative values for
post-epoch wall-clock times.  Wall-clock reads (`chrono::Utc::now()`) are
modelled by threading the current time as an explicit argument.
-/
import Mathlib

/-! ## JSON values

`serde_json::Value` is an external library type; the gateway only ever
serializes it (`serde_json::to_string`).  We model a JSON value by its
serialized text, together with the one constructor the gateway builds
itself, `json!({"ts": ts})`. -/

/-- A `serde_json::Value`, represented by its serialized canonical text. -/
structure Json where
  raw : String
deriving DecidableEq, Repr

/-! ## Decimal rendering and parsing of stream ids

Rust's `format!("{}-{}", ts, seq)` renders both numbers in decimal.  We model
decimal rendering by `natChars` (fuel-based so that it reduces in the kernel)
and decimal parsing by `parseDigits`; `splitDash` models splitting the id at
its `'-'` separator. -/

/-- The decimal digit character for `n`: code point 48 (`'0'`) plus the
digit value. -/
def digitChar (n : Nat) : Char := Char.ofNat (48 + n % 10)

/-- Fuel-driven decimal rendering, most significant digit first. -/
def natCharsAux : Nat → Nat → List Char
  | 0, _ => []
  | fuel + 1, n =>
    if n < 10 then [digitChar n]
    else natCharsAux fuel (n / 10) ++ [digitChar (n % 10)]

/-- Decimal digit string of a natural number. -/
def natChars (n : Nat) : List Char := natCharsAux (n + 1) n

/-- Decimal digit string of a natural number, as a `String`. -/
def natStr (n : Nat) : String := ⟨natChars n⟩

/-- Numeric value of a decimal digit character (code points 48–57). -/
def charVal (c : Char) : Option Nat :=
  if 48 ≤ c.toNat ∧ c.toNat ≤ 57 then some (c.toNat - 48) else none

/-- Parse a decimal digit list with an accumulator. -/
def parseDigitsAux : Nat → List Char → Option Nat
  | acc, [] => some acc
  | acc, c :: r =>
    match charVal c with
    | some d => parseDigitsAux (acc * 10 + d) r
    | none => none

/-- Parse a non-empty decimal digit list as an unsigned number. -/
def parseDigits : List Char → Option Nat
  | [] => none
  | l => parseDigitsAux 0 l

/-- Split a character list at its first `'-'`; `none` when no dash occurs. -/
def splitDash : List Char → Option (List Char × List Char)
  | [] => none
  | c :: r =>
    if c = '-' then some ([], r)
    else
      match splitDash r with
      | some (a, b) => some (c :: a, b)
      | none => none

/-- Parse a stream id `"<digits>-<digits>"` into the pair
(parse-as-unsigned timestamp, parse-as-unsigned sequence). -/
def parseStreamId (s : String) : Option (Nat × Nat) :=
  match splitDash s.data with
  | some (a, b) =>
    match parseDigits a, parseDigits b with
    | some x, some y => some (x, y)
    | _, _ => none
  | none => none

/-- `format!("{}-{}", ts, seq)`: the stream id produced for a millisecond
timestamp `ts` and a counter value `seq`. -/
def formatId (ts seq : Nat) : String := ⟨natChars ts ++ '-' :: natChars seq⟩

/-- Lexicographic order on (timestamp, sequence) pairs. -/
def pairLtB : Nat × Nat → Nat × Nat → Bool
  | (t1, s1), (t2, s2) => decide (t1 < t2) || (decide (t1 = t2) && decide (s1 < s2))

/-- Stream-id comparison given by the spec: parse both sides as
(unsigned timestamp, unsigned sequence) and compare pairwise;
non-parsing ids compare `false`. -/
def streamIdLtB (a b : String) : Bool :=
  match parseStreamId a, parseStreamId b with
  | some p, some q => pairLtB p q
  | _, _ => false

/-! ## The SSE event model (`event.rs`, identical in both variants) -/

/-- `EventData`: raw string payload or structured JSON payload. -/
inductive EventData where
  | Raw (s : String)
  | Value (v : Json)
deriving DecidableEq, Repr

/-- `EventData::to_string`: `Raw` verbatim, `Value` as its JSON text. -/
def EventData.to_string : EventData → String
  | .Raw s => s
  | .Value v => v.raw

/-- `SseEvent`: the immutable dispatch unit. -/
structure SseEvent where
  event_type : String
  data : EventData
  id : Option String
  stream_id : Option String
  retry : Option Nat
deriving DecidableEq, Repr

/-- `SseEvent::new(event_type, data)`: structured payload, auto-assigned
business id (the fresh UUID is threaded in as an argument), no stream id,
no retry hint. -/
def SseEvent.new (event_type : String) (data : Json) (uuid : String) : SseEvent :=
  { event_type := event_type
    data := EventData.Value data
    id := some uuid
    stream_id := none
    retry := none }

/-! ## SSE wire emission (`handler.rs::sse_event_to_axum`, identical in both
variants) -/

/-- An `axum::response::sse::Event` under construction: the fields that the
builder calls `.event(..)`, `.data(..)`, `.id(..)`, `.retry(..)` set; an
`Option` field set to `none` means the corresponding wire line is omitted. -/
structure AxumEvent where
  event : String
  data : String
  id : Option String
  retry : Option Nat
deriving DecidableEq, Repr

/-- `sse_event_to_axum`: serialize the payload, prefer `stream_id` over the
business `id` for the SSE `id:` field (omitting it when neither is present),
and set `retry` only when the hint is present. -/
def sse_event_to_axum (e : SseEvent) : AxumEvent :=
  { event := e.event_type
    data := e.data.to_string
    id :=
      match e.stream_id with
      | some sid => some sid
      | none => e.id
    retry := e.retry }

/-- `serde_json::json!({"ts": ts}).to_string()` for a natural `ts`. -/
def jsonTs (ts : Nat) : Json := ⟨"\x7b\"ts\":" ++ natStr ts ++ "\x7d"⟩

/-- The synthetic SSE event built from one delivered heartbeat tick in the
stream assembler (`Event::default().event("heartbeat").data(json!({"ts": ts}).to_string())`). -/
def heartbeatEvent (ts : Nat) : AxumEvent :=
  { event := "heartbeat"
    data := (jsonTs ts).raw
    id := none
    retry := none }

/-! ## Association lists

`DashMap<K, V>` is modelled as an association list queried through `alookup`.
`aset` models `insert` (replace-or-add), `aremove` models `remove`; entry
order in the list is irrelevant since all reads go through `alookup`. -/

/-- `DashMap::get`: the value bound to the first occurrence of `k`. -/
def alookup {α : Type} : List (String × α) → String → Option α
  | [], _ => none
  | (k, v) :: r, q => if k = q then some v else alookup r q

/-- `DashMap::remove`: drop the binding of `k`. -/
def aremove {α : Type} : List (String × α) → String → List (String × α)
  | [], _ => []
  | p :: r, k => if p.1 = k then aremove r k else p :: aremove r k

/-- `DashMap::insert` / `entry(k).or_default()` followed by an overwrite:
bind `k` to `v`, replacing any previous binding. -/
def aset {α : Type} (l : List (String × α)) (k : String) (v : α) : List (String × α) :=
  (k, v) :: aremove l k

/-! ## In-memory replay store (`crates/sse-gateway/src/storage.rs::MemoryStorage`)

The `streams` DashMap maps a channel id to its ordered log of
`(stream_id, event)` pairs; `counter` is the process-wide `AtomicU64`
sequence counter. -/

structure MemoryStorage where
  streams : List (String × List (String × SseEvent))
  counter : Nat
  max_per_channel : Nat
deriving DecidableEq, Repr

namespace MemoryStorage

/-- `MemoryStorage::new(max_per_channel)`: empty streams, counter at 0. -/
def new (max_per_channel : Nat) : MemoryStorage :=
  { streams := [], counter := 0, max_per_channel := max_per_channel }

/-- `generate_stream_id`: format the current millisecond timestamp and the
fetched-and-incremented counter value as `"<ts>-<seq>"`.  The wall clock `ts`
is an explicit argument; the returned state carries the incremented counter. -/
def generate_stream_id (ts : Nat) (st : MemoryStorage) : String × MemoryStorage :=
  (formatId ts st.counter, { st with counter := st.counter + 1 })

/-- The trim step of `store`: if the log exceeds `max` entries, drain the
oldest so that exactly `max` remain. -/
def trimLog (max : Nat) (v : List (String × SseEvent)) : List (String × SseEvent) :=
  if v.length > max then v.drop (v.length - max) else v

/-- The retained log of one channel (empty when the channel has no entry). -/
def channelLog (st : MemoryStorage) (ch : String) : List (String × SseEvent) :=
  (alookup st.streams ch).getD []

/-- `store(channel_id, event)`: generate a fresh stream id, append a copy of
the event carrying that id to the channel's log, then trim the log to the
newest `max_per_channel` entries.  Returns the updated store and the id. -/
def store (ts : Nat) (st : MemoryStorage) (ch : String) (e : SseEvent) :
    MemoryStorage × String :=
  let gen := st.generate_stream_id ts
  let sid := gen.1
  let st1 := gen.2
  let stored := { e with stream_id := some sid }
  let log1 := channelLog st1 ch ++ [(sid, stored)]
  let log2 := trimLog st1.max_per_channel log1
  ({ st1 with streams := aset st1.streams ch log2 }, sid)

/-- The scan of `get_messages_after`: walk the log with a `found` flag that is
set at the first entry whose id equals `aid`; every later entry's event is
returned. -/
def afterMatch (aid : String) : List (String × SseEvent) → List SseEvent
  | [] => []
  | (sid, _e) :: rest =>
    if sid = aid then rest.map Prod.snd else afterMatch aid rest

/-- `get_messages_after(channel_id, after_id)`: `None` cursor or unknown
channel yields no backlog; otherwise return the events strictly after the
first entry whose stored id equals the cursor. -/
def get_messages_after (st : MemoryStorage) (ch : String) (after_id : Option String) :
    List SseEvent :=
  match after_id with
  | none => []
  | some aid =>
    match alookup st.streams ch with
    | none => []
    | some entries => afterMatch aid entries

/-- Iterated `store` of a batch of events on one channel; each element of
`inputs` is (wall-clock millis at that call, event). -/
def storeMany (ch : String) (inputs : List (Nat × SseEvent)) (st : MemoryStorage) :
    MemoryStorage :=
  match inputs with
  | [] => st
  | (ts, e) :: rest => storeMany ch rest (st.store ts ch e).1

/-- The full ordered sequence of `(stream_id, stored event)` entries that a
batch of `store` calls appends, given the counter value at the first call. -/
def genEntries (inputs : List (Nat × SseEvent)) (c : Nat) : List (String × SseEvent) :=
  match inputs with
  | [] => []
  | (ts, e) :: rest =>
    (formatId ts c, { e with stream_id := some (formatId ts c) }) :: genEntries rest (c + 1)

end MemoryStorage

/-- The suffix of the newest `n` entries of a list (all of it when it has at
most `n` entries); the normal form of `trimLog`. -/
def lastN {α : Type} (n : Nat) (l : List α) : List α := l.drop (l.length - n)

/-- `RedisStorage::generate_id` (`crates/sse-gateway-redis/src/storage.rs`):
textually the same id generation as the in-memory store, over its own
process-wide counter. -/
def RedisStorage.generate_id (ts : Nat) (counter : Nat) : String × Nat :=
  (formatId ts counter, counter + 1)

/-! ## Connections and the connection registry

An `SseConnection` owns the producer end of a bounded `mpsc::channel(100)`
queue.  The queue's buffered contents and the liveness of its receiver end
are part of the program state, so the model keeps them inside the
connection record: `active` is `!sender.is_closed()` (the receiver end has
not been dropped) and `queue` is the buffered event sequence.  `send` on the
channel awaits for space and fails exactly when the receiver is gone, so a
modelled send succeeds if and only if the connection is active.  The
connection's `metadata` (timestamps, client ip, user agent) is not touched
by any verified operation and is omitted. -/

structure SseConnection where
  channel_id : String
  active : Bool
  queue : List SseEvent
deriving DecidableEq, Repr

/-- `SseConnection::send` (crates variant): enqueue and report success.
The src variant's `send` returns `Result<(), SendError>`, with `Ok` exactly
when this returns `true`. -/
def SseConnection.send (c : SseConnection) (e : SseEvent) : SseConnection × Bool :=
  if c.active then ({ c with queue := c.queue ++ [e] }, true) else (c, false)

/-- The two registry maps of `ConnectionManager`: `connections` keyed by
connection id, and the `channel_index` (`channel_connections` in the src
variant) keyed by channel id.  The heartbeat broadcaster carries no
persistent state that the verified operations read. -/
structure ConnectionManager where
  connections : List (String × SseConnection)
  channel_index : List (String × List String)
deriving DecidableEq, Repr

/-- The ids currently indexed under one channel. -/
def chanIds (st : ConnectionManager) (ch : String) : List String :=
  (alookup st.channel_index ch).getD []

namespace Crates

/-- `ConnectionManager::register` (crates variant): create a connection on
`ch` (fresh UUID `cid` threaded in as an argument), insert it into the main
map and push its id onto its channel's index list. -/
def register (st : ConnectionManager) (ch : String) (cid : String) : ConnectionManager :=
  { connections := aset st.connections cid { channel_id := ch, active := true, queue := [] }
    channel_index := aset st.channel_index ch (chanIds st ch ++ [cid]) }

/-- `ConnectionManager::unregister` (crates variant): remove the id from the
main map; if it was present, drop it from its own channel's index list
(when that list exists).  Absent ids are a no-op. -/
def unregister (st : ConnectionManager) (cid : String) : ConnectionManager :=
  match alookup st.connections cid with
  | none => st
  | some c =>
    let conns := aremove st.connections cid
    match alookup st.channel_index c.channel_id with
    | none => { st with connections := conns }
    | some ids =>
      { connections := conns
        channel_index := aset st.channel_index c.channel_id (ids.filter (fun i => i ≠ cid)) }

/-- `ConnectionManager::send_to_connection` (crates variant): look the
connection up and attempt a direct enqueue; report the enqueue outcome.
A failed enqueue leaves the registry untouched. -/
def send_to_connection (st : ConnectionManager) (cid : String) (e : SseEvent) :
    ConnectionManager × Bool :=
  match alookup st.connections cid with
  | none => (st, false)
  | some c =>
    if c.active then
      ({ st with connections := aset st.connections cid { c with queue := c.queue ++ [e] } },
       true)
    else (st, false)

/-- `ConnectionManager::send_to_channel` (crates variant): snapshot the
channel's id list, then enqueue a clone of the event to each target that is
still in the main map, counting successes. -/
def send_to_channel (st : ConnectionManager) (ch : String) (e : SseEvent) :
    ConnectionManager × Nat :=
  (chanIds st ch).foldl
    (fun acc cid =>
      match alookup acc.1.connections cid with
      | none => acc
      | some c =>
        let sr := c.send e
        ({ acc.1 with connections := aset acc.1.connections cid sr.1 },
         if sr.2 then acc.2 + 1 else acc.2))
    (st, 0)

/-- `ConnectionManager::broadcast` (crates variant): iterate over every
entry of the main map, enqueue a clone of the event to each, and count the
successful enqueues. -/
def broadcast (st : ConnectionManager) (e : SseEvent) : ConnectionManager × Nat :=
  ({ st with connections := st.connections.map (fun p => (p.1, (p.2.send e).1)) },
   (st.connections.filter (fun p => (p.2.send e).2)).length)

/-- `ConnectionManager::cleanup_dead_connections` (crates variant): collect
the ids of inactive connections, then unregister each. -/
def cleanup_dead_connections (st : ConnectionManager) : ConnectionManager :=
  let dead := (st.connections.filter (fun p => !p.2.active)).map Prod.fst
  dead.foldl unregister st

/-- `ConnectionManager::send_heartbeat` (crates variant): publish
`chrono::Utc::now().timestamp_millis()` — the current millisecond
timestamp, threaded in as `nowMs` — on the process-wide broadcaster. -/
def send_heartbeat (nowMs : Nat) : Nat := nowMs

end Crates

namespace SrcVar

/-- `ConnectionManager::unregister` (src variant): like the crates variant,
but additionally removes the channel's index entry when its list becomes
empty. -/
def unregister (st : ConnectionManager) (cid : String) : ConnectionManager :=
  match alookup st.connections cid with
  | none => st
  | some c =>
    let conns := aremove st.connections cid
    match alookup st.channel_index c.channel_id with
    | none => { st with connections := conns }
    | some ids =>
      let ids' := ids.filter (fun i => i ≠ cid)
      if ids'.isEmpty then
        { connections := conns, channel_index := aremove st.channel_index c.channel_id }
      else
        { connections := conns, channel_index := aset st.channel_index c.channel_id ids' }

/-- `ConnectionManager::send_to_connection` (src variant): look the
connection up and attempt a direct enqueue; on a failed enqueue (receiver
closed) the connection is unregistered and `false` is returned. -/
def send_to_connection (st : ConnectionManager) (cid : String) (e : SseEvent) :
    ConnectionManager × Bool :=
  match alookup st.connections cid with
  | none => (st, false)
  | some c =>
    if c.active then
      ({ st with connections := aset st.connections cid { c with queue := c.queue ++ [e] } },
       true)
    else (unregister st cid, false)

/-- `ConnectionManager::send_heartbeat` (src variant): publish
`chrono::Utc::now().timestamp()` — whole seconds, i.e. the millisecond
clock divided by 1000 — on the process-wide broadcaster. -/
def send_heartbeat (nowMs : Nat) : Nat := nowMs / 1000

end SrcVar

/-! ## The `POST /send` handler (`crates/sse-gateway/src/handler.rs::send_message`) -/

/-- The request payload of `POST /send`. -/
structure SendMessageRequest where
  channel_id : Option String
  event_type : String
  data : Json
deriving DecidableEq, Repr

/-- The response payload of `POST /send`. -/
structure SendMessageResponse where
  success : Bool
  sent_count : Nat
deriving DecidableEq, Repr

/-- `send_message`: build an event from the request (`SseEvent::new`, with a
fresh business id `uuid`); for a non-empty target channel, generate a stream
id (`genId` models the value returned by `storage.generate_id()`), attach it
when non-empty, fan out synchronously to the channel, and hand the
`(channel, stream_id, event)` triple to the fire-and-forget storage task;
otherwise broadcast the event to every connection with no stream id and no
storage hand-off.  Returns the HTTP response, the updated registry, and the
list of store requests handed to the background task. -/
def send_message (st : ConnectionManager) (genId uuid : String) (req : SendMessageRequest) :
    SendMessageResponse × ConnectionManager × List (String × String × SseEvent) :=
  let event0 := SseEvent.new req.event_type req.data uuid
  let run : (ConnectionManager × Nat) × List (String × String × SseEvent) :=
    match req.channel_id with
    | some ch =>
      if ch.isEmpty then (Crates.broadcast st event0, [])
      else
        let event := if genId.isEmpty then event0 else { event0 with stream_id := some genId }
        (Crates.send_to_channel st ch event, [(ch, genId, event)])
    | none => (Crates.broadcast st event0, [])
  ({ success := decide (0 < run.1.2), sent_count := run.1.2 }, run.1.1, run.2)

/-! ## The registry mirror invariant -/

/-- The registry mirror invariant: an id appears in a channel's index list
exactly when the main map binds it to a connection on that channel (so every
registered id appears in exactly its own channel's list, no other list, and
no orphan ids exist), and no index list repeats an id. -/
def mirrorInv (st : ConnectionManager) : Prop :=
  (∀ cid ch, cid ∈ chanIds st ch ↔
      ∃ c, alookup st.connections cid = some c ∧ c.channel_id = ch)
  ∧ ∀ ch, (chanIds st ch).Nodup

/-! # Theorems -/

/-! ## Association-list lemmas -/

theorem alookup_aremove {α : Type} (l : List (String × α)) (k q : String) :
    alookup (aremove l k) q = if q = k then none else alookup l q := by
  induction l with
  | nil => simp only [aremove, alookup, ite_self]
  | cons p r ih =>
    obtain ⟨pk, pv⟩ := p
    by_cases hpk : pk = k
    · rw [show aremove ((pk, pv) :: r) k = aremove r k by simp [aremove, hpk]]
      rw [ih]
      by_cases hq : q = k
      · simp [hq]
      · have hkq : ¬ pk = q := fun h => hq (hpk ▸ h.symm)
        simp [alookup, hq, hkq]
    · rw [show aremove ((pk, pv) :: r) k = (pk, pv) :: aremove r k by simp [aremove, hpk]]
      by_cases hpq : pk = q
      · have hq : ¬ q = k := fun h => hpk (hpq.trans h)
        simp [alookup, hpq, hq]
      · simp [alookup, hpq, ih]

theorem alookup_aset {α : Type} (l : List (String × α)) (k : String) (v : α) (q : String) :
    alookup (aset l k v) q = if q = k then some v else alookup l q := by
  by_cases hq : q = k
  · subst hq
    simp [aset, alookup]
  · have hkq : ¬ k = q := fun h => hq h.symm
    simp [aset, alookup, hkq, alookup_aremove, hq]

/-! ## C8 — SSE wire emission: id preference and retry -/

/-- C8: on the wire, an event with a `stream_id` uses it as the SSE `id:`
field; otherwise the business `id` is used when present; otherwise the
`id:` line is omitted.  The `retry:` line is present exactly when the
event's retry hint is set. -/
theorem c8_wire_id_preference (e : SseEvent) :
    (∀ sid, e.stream_id = some sid → (sse_event_to_axum e).id = some sid)
    ∧ (e.stream_id = none → ∀ bid, e.id = some bid → (sse_event_to_axum e).id = some bid)
    ∧ (e.stream_id = none → e.id = none → (sse_event_to_axum e).id = none)
    ∧ ((sse_event_to_axum e).retry.isSome ↔ e.retry.isSome) := by
  refine ⟨fun sid hs => ?_, fun hs bid hb => ?_, fun hs hb => ?_, ?_⟩
  · simp [sse_event_to_axum, hs]
  · simp [sse_event_to_axum, hs, hb]
  · simp [sse_event_to_axum, hs, hb]
  · simp [sse_event_to_axum]

/-- C8 witness: evaluation at concrete events. -/
theorem c8_wire_id_preference_witness :
    (sse_event_to_axum
        { event_type := "message", data := .Raw "hi", id := some "b1",
          stream_id := some "7-0", retry := some 3 }).id = some "7-0" :=
  (c8_wire_id_preference _).1 "7-0" rfl

/-! ## Registry helper lemmas -/

theorem crates_unregister_absent (st : ConnectionManager) (cid : String)
    (h : alookup st.connections cid = none) : Crates.unregister st cid = st := by
  simp [Crates.unregister, h]

theorem srcvar_unregister_absent (st : ConnectionManager) (cid : String)
    (h : alookup st.connections cid = none) : SrcVar.unregister st cid = st := by
  simp [SrcVar.unregister, h]

theorem crates_unregister_lookup_self (st : ConnectionManager) (cid : String) :
    alookup (Crates.unregister st cid).connections cid = none := by
  cases h : alookup st.connections cid with
  | none => simp [crates_unregister_absent st cid h, h]
  | some c =>
    cases h2 : alookup st.channel_index c.channel_id with
    | none => simp [Crates.unregister, h, h2, alookup_aremove]
    | some ids => simp [Crates.unregister, h, h2, alookup_aremove]

theorem srcvar_unregister_lookup_self (st : ConnectionManager) (cid : String) :
    alookup (SrcVar.unregister st cid).connections cid = none := by
  cases h : alookup st.connections cid with
  | none => simp [srcvar_unregister_absent st cid h, h]
  | some c =>
    cases h2 : alookup st.channel_index c.channel_id with
    | none => simp [SrcVar.unregister, h, h2, alookup_aremove]
    | some ids =>
      simp only [SrcVar.unregister, h, h2]
      split <;> simp [alookup_aremove]

/-! ## C6 — unregister is idempotent -/

/-- C6: in both registry variants, unregistering twice equals unregistering
once, and unregistering an absent id is a no-op. -/
theorem c6_unregister_idempotent (st : ConnectionManager) (cid : String) :
    Crates.unregister (Crates.unregister st cid) cid = Crates.unregister st cid
    ∧ SrcVar.unregister (SrcVar.unregister st cid) cid = SrcVar.unregister st cid
    ∧ (alookup st.connections cid = none →
        Crates.unregister st cid = st ∧ SrcVar.unregister st cid = st) :=
  ⟨crates_unregister_absent _ _ (crates_unregister_lookup_self st cid),
   srcvar_unregister_absent _ _ (srcvar_unregister_lookup_self st cid),
   fun h => ⟨crates_unregister_absent _ _ h, srcvar_unregister_absent _ _ h⟩⟩

/-- C6 witness: evaluation at a concrete one-connection registry and at an
absent id. -/
theorem c6_unregister_idempotent_witness :
    (Crates.unregister
        (Crates.unregister
          { connections := [("c1", { channel_id := "room", active := true, queue := [] })]
            channel_index := [("room", ["c1"])] } "c1") "c1"
      = Crates.unregister
          { connections := [("c1", { channel_id := "room", active := true, queue := [] })]
            channel_index := [("room", ["c1"])] } "c1")
    ∧ (Crates.unregister
          { connections := [], channel_index := ([] : List (String × List String)) } "c9"
        = { connections := [], channel_index := [] }) :=
  ⟨(c6_unregister_idempotent
      { connections := [("c1", { channel_id := "room", active := true, queue := [] })]
        channel_index := [("room", ["c1"])] } "c1").1,
   ((c6_unregister_idempotent
      { connections := [], channel_index := [] } "c9").2.2 (by decide)).1⟩

/-! ## C2 — send_to_connection failure behaviour -/

/-- C2 counterexample: in the crates variant, a failed direct enqueue does
NOT unregister the connection.  With one registered connection whose
receiver is closed, `send_to_connection` returns `false` but leaves the
registry unchanged: the id is still in the main map and in its channel's
index list. -/
theorem c2_counterexample :
    (Crates.send_to_connection
        { connections := [("c1", { channel_id := "room", active := false, queue := [] })]
          channel_index := [("room", ["c1"])] } "c1"
        { event_type := "message", data := .Raw "hi", id := none,
          stream_id := none, retry := none }).2 = false
    ∧ (Crates.send_to_connection
        { connections := [("c1", { channel_id := "room", active := false, queue := [] })]
          channel_index := [("room", ["c1"])] } "c1"
        { event_type := "message", data := .Raw "hi", id := none,
          stream_id := none, retry := none }).1
      = { connections := [("c1", { channel_id := "room", active := false, queue := [] })]
          channel_index := [("room", ["c1"])] } := by
  decide

/-- C2 amended: `send_to_connection` performs a direct enqueue and returns
`false` on failure, but only the src variant unregisters the failed
connection; the crates variant leaves the registry untouched on failure
(cleanup is deferred to the dead-connection sweeper).  An absent id returns
`false` in both variants. -/
theorem c2_send_to_connection_amended :
    (∀ (st : ConnectionManager) (cid : String) (e : SseEvent) (c : SseConnection),
        alookup st.connections cid = some c → c.active = false →
        SrcVar.send_to_connection st cid e = (SrcVar.unregister st cid, false)
        ∧ alookup (SrcVar.send_to_connection st cid e).1.connections cid = none)
    ∧ (∀ (st : ConnectionManager) (cid : String) (e : SseEvent) (c : SseConnection),
        alookup st.connections cid = some c → c.active = false →
        Crates.send_to_connection st cid e = (st, false))
    ∧ (∀ (st : ConnectionManager) (cid : String) (e : SseEvent) (c : SseConnection),
        alookup st.connections cid = some c → c.active = true →
        (Crates.send_to_connection st cid e).2 = true
        ∧ (SrcVar.send_to_connection st cid e).2 = true)
    ∧ (∀ (st : ConnectionManager) (cid : String) (e : SseEvent),
        alookup st.connections cid = none →
        Crates.send_to_connection st cid e = (st, false)
        ∧ SrcVar.send_to_connection st cid e = (st, false)) := by
  refine ⟨fun st cid e c h hin => ⟨?_, ?_⟩, fun st cid e c h hin => ?_,
    fun st cid e c h hact => ⟨?_, ?_⟩, fun st cid e h => ⟨?_, ?_⟩⟩
  · simp [SrcVar.send_to_connection, h, hin]
  · simp [SrcVar.send_to_connection, h, hin, srcvar_unregister_lookup_self]
  · simp [Crates.send_to_connection, h, hin]
  · simp [Crates.send_to_connection, h, hact]
  · simp [SrcVar.send_to_connection, h, hact]
  · simp [Crates.send_to_connection, h]
  · simp [SrcVar.send_to_connection, h]

/-- C2 witness: evaluation at a concrete registry with a closed receiver. -/
theorem c2_send_to_connection_amended_witness :
    SrcVar.send_to_connection
        { connections := [("c1", { channel_id := "room", active := false, queue := [] })]
          channel_index := [("room", ["c1"])] } "c1"
        { event_type := "message", data := .Raw "hi", id := none,
          stream_id := none, retry := none }
      = (SrcVar.unregister
          { connections := [("c1", { channel_id := "room", active := false, queue := [] })]
            channel_index := [("room", ["c1"])] } "c1", false) :=
  (c2_send_to_connection_amended.1
    { connections := [("c1", { channel_id := "room", active := false, queue := [] })]
      channel_index := [("room", ["c1"])] } "c1"
    { event_type := "message", data := .Raw "hi", id := none,
      stream_id := none, retry := none }
    { channel_id := "room", active := false, queue := [] } (by decide) rfl).1

/-! ## C7 — heartbeat timestamps -/

/-- C7 counterexample: the src variant's heartbeat does not publish the
millisecond timestamp.  At wall time 1500 ms it publishes
`timestamp()` = 1 (whole seconds), and the synthetic event delivered to
subscribers carries `{"ts":1}`, not `{"ts":1500}`. -/
theorem c7_counterexample :
    SrcVar.send_heartbeat 1500 = 1
    ∧ heartbeatEvent (SrcVar.send_heartbeat 1500)
        = { event := "heartbeat", data := "\x7b\"ts\":1\x7d", id := none, retry := none }
    ∧ heartbeatEvent (SrcVar.send_heartbeat 1500) ≠ heartbeatEvent 1500 := by
  decide

/-- C7 amended: the crates variant's heartbeat publishes the current
millisecond timestamp and each delivered tick is emitted as a synthetic
`heartbeat` event whose data is the JSON object `\x7b"ts": tick\x7d`; the src
variant instead publishes the timestamp in whole seconds (`nowMs / 1000`),
which is strictly smaller than the millisecond value once `nowMs ≥ 1000`. -/
theorem c7_heartbeat_amended (nowMs : Nat) :
    heartbeatEvent (Crates.send_heartbeat nowMs)
      = { event := "heartbeat", data := "\x7b\"ts\":" ++ natStr nowMs ++ "\x7d",
          id := none, retry := none }
    ∧ SrcVar.send_heartbeat nowMs = nowMs / 1000
    ∧ (1000 ≤ nowMs → SrcVar.send_heartbeat nowMs < nowMs) :=
  ⟨rfl, rfl, fun h => Nat.div_lt_self (by omega) (by omega)⟩

/-- C7 witness: evaluation at wall time 2000 ms. -/
theorem c7_heartbeat_amended_witness :
    SrcVar.send_heartbeat 2000 < 2000 :=
  (c7_heartbeat_amended 2000).2.2 (by decide)

/-! ## C9 — POST /send success flag -/

theorem alookup_broadcast_map (e : SseEvent) (l : List (String × SseConnection)) (q : String) :
    alookup (l.map (fun p => (p.1, (p.2.send e).1))) q
      = (alookup l q).map (fun c => (c.send e).1) := by
  induction l with
  | nil => rfl
  | cons p r ih => by_cases h : p.1 = q <;> simp [alookup, h, ih]

/-- C9: the `POST /send` response sets `success` to true exactly when
`sent_count > 0`; a targeted send on a channel with no currently indexed
subscribers responds `{success: false, sent_count: 0}` while still handing
the event to the background storage task. -/
theorem c9_send_success_iff (st : ConnectionManager) (genId uuid : String)
    (req : SendMessageRequest) :
    ((send_message st genId uuid req).1.success = true ↔
      0 < (send_message st genId uuid req).1.sent_count)
    ∧ ∀ ch, req.channel_id = some ch → ch.isEmpty = false → chanIds st ch = [] →
        (send_message st genId uuid req).1 = { success := false, sent_count := 0 }
        ∧ (send_message st genId uuid req).2.2 ≠ [] := by
  constructor
  · have hr : (send_message st genId uuid req).1.success
        = decide (0 < (send_message st genId uuid req).1.sent_count) := rfl
    rw [hr]
    exact decide_eq_true_iff
  · intro ch hch hne hemp
    constructor <;>
      simp [send_message, hch, hne, Crates.send_to_channel, hemp]

/-- C9 witness: a targeted send on channel "room" with an empty registry. -/
theorem c9_send_success_iff_witness :
    (send_message { connections := [], channel_index := [] } "1-0" "u1"
        { channel_id := some "room", event_type := "message", data := ⟨"\"hi\""⟩ }).1
      = { success := false, sent_count := 0 } :=
  ((c9_send_success_iff { connections := [], channel_index := [] } "1-0" "u1"
      { channel_id := some "room", event_type := "message", data := ⟨"\"hi\""⟩ }).2
    "room" rfl rfl rfl).1

/-! ## C10 — POST /send with an empty channel_id broadcasts -/

/-- C10: a `POST /send` whose `channel_id` is present but empty is treated
as a broadcast: nothing is handed to storage, no stream id is assigned to
the event, the registry is updated exactly as by `broadcast`, the reported
count is the broadcast count, and every active connection of every channel
receives the event on its queue. -/
theorem c10_empty_channel_broadcast (st : ConnectionManager) (genId uuid : String)
    (req : SendMessageRequest) (h : req.channel_id = some "") :
    (send_message st genId uuid req).2.2 = []
    ∧ (send_message st genId uuid req).2.1
        = (Crates.broadcast st (SseEvent.new req.event_type req.data uuid)).1
    ∧ (send_message st genId uuid req).1.sent_count
        = (Crates.broadcast st (SseEvent.new req.event_type req.data uuid)).2
    ∧ (SseEvent.new req.event_type req.data uuid).stream_id = none
    ∧ ∀ cid c, alookup st.connections cid = some c → c.active = true →
        alookup (send_message st genId uuid req).2.1.connections cid
          = some { c with queue := c.queue ++ [SseEvent.new req.event_type req.data uuid] } := by
  have hemp : ("" : String).isEmpty = true := rfl
  refine ⟨?_, ?_, ?_, rfl, ?_⟩
  · simp [send_message, h, hemp]
  · simp [send_message, h, hemp]
  · simp [send_message, h, hemp]
  · intro cid c hc hact
    have hm : (send_message st genId uuid req).2.1
        = (Crates.broadcast st (SseEvent.new req.event_type req.data uuid)).1 := by
      simp [send_message, h, hemp]
    rw [hm]
    simp only [Crates.broadcast]
    rw [alookup_broadcast_map]
    simp [hc, SseConnection.send, hact]

/-- C10 witness: a concrete empty-string channel send over a two-channel
registry delivers to both connections and persists nothing. -/
theorem c10_empty_channel_broadcast_witness :
    (send_message
        { connections :=
            [("c1", { channel_id := "a", active := true, queue := [] }),
             ("c2", { channel_id := "b", active := true, queue := [] })]
          channel_index := [("a", ["c1"]), ("b", ["c2"])] } "1-0" "u1"
        { channel_id := some "", event_type := "message", data := ⟨"\"hi\""⟩ }).2.2 = []
    ∧ alookup
        (send_message
          { connections :=
              [("c1", { channel_id := "a", active := true, queue := [] }),
               ("c2", { channel_id := "b", active := true, queue := [] })]
            channel_index := [("a", ["c1"]), ("b", ["c2"])] } "1-0" "u1"
          { channel_id := some "", event_type := "message", data := ⟨"\"hi\""⟩ }).2.1.connections
        "c2"
      = some { channel_id := "b", active := true,
               queue := [SseEvent.new "message" ⟨"\"hi\""⟩ "u1"] } :=
  ⟨(c10_empty_channel_broadcast
      { connections :=
          [("c1", { channel_id := "a", active := true, queue := [] }),
           ("c2", { channel_id := "b", active := true, queue := [] })]
        channel_index := [("a", ["c1"]), ("b", ["c2"])] } "1-0" "u1"
      { channel_id := some "", event_type := "message", data := ⟨"\"hi\""⟩ } rfl).1,
   (c10_empty_channel_broadcast
      { connections :=
          [("c1", { channel_id := "a", active := true, queue := [] }),
           ("c2", { channel_id := "b", active := true, queue := [] })]
        channel_index := [("a", ["c1"]), ("b", ["c2"])] } "1-0" "u1"
      { channel_id := some "", event_type := "message", data := ⟨"\"hi\""⟩ } rfl).2.2.2.2
    "c2" { channel_id := "b", active := true, queue := [] } (by decide) rfl⟩

/-! ## C1 — replay query semantics -/

theorem afterMatch_not_mem (aid : String) (l : List (String × SseEvent))
    (h : ∀ p ∈ l, p.1 ≠ aid) : MemoryStorage.afterMatch aid l = [] := by
  induction l with
  | nil => rfl
  | cons p r ih =>
    obtain ⟨sid, e⟩ := p
    have h1 : ¬ sid = aid := h (sid, e) (List.mem_cons_self _ _)
    rw [show MemoryStorage.afterMatch aid ((sid, e) :: r) = MemoryStorage.afterMatch aid r by
      simp [MemoryStorage.afterMatch, h1]]
    exact ih fun q hq => h q (List.mem_cons_of_mem _ hq)

theorem afterMatch_append_match (aid : String) (pre suf : List (String × SseEvent))
    (e : SseEvent) (h : ∀ p ∈ pre, p.1 ≠ aid) :
    MemoryStorage.afterMatch aid (pre ++ (aid, e) :: suf) = suf.map Prod.snd := by
  induction pre with
  | nil => simp [MemoryStorage.afterMatch]
  | cons p r ih =>
    obtain ⟨sid, e'⟩ := p
    have h1 : ¬ sid = aid := h (sid, e') (List.mem_cons_self _ _)
    rw [List.cons_append]
    rw [show MemoryStorage.afterMatch aid ((sid, e') :: (r ++ (aid, e) :: suf))
        = MemoryStorage.afterMatch aid (r ++ (aid, e) :: suf) by
      simp [MemoryStorage.afterMatch, h1]]
    exact ih fun q hq => h q (List.mem_cons_of_mem _ hq)

/-- C1 counterexample: the in-memory replay query matches the cursor by
exact id, so a cursor that was trimmed out of the log returns NOTHING, not
the retained newer entries.  With capacity N = 1, storing "A" (stream id
"0-0") and then "B" (stream id "0-1") leaves exactly the "0-1" entry
retained, and `"0-1"` is strictly greater than the cursor `"0-0"` under the
stream-id order, yet `get_messages_after(room, Some "0-0")` returns `[]`
instead of the claimed `[B]`. -/
theorem c1_counterexample :
    (MemoryStorage.get_messages_after
        (((MemoryStorage.new 1).store 0 "room"
            { event_type := "message", data := .Raw "A", id := none,
              stream_id := none, retry := none }).1.store 0 "room"
            { event_type := "message", data := .Raw "B", id := none,
              stream_id := none, retry := none }).1
        "room" (some "0-0") = [])
    ∧ streamIdLtB "0-0" "0-1" = true
    ∧ MemoryStorage.channelLog
        (((MemoryStorage.new 1).store 0 "room"
            { event_type := "message", data := .Raw "A", id := none,
              stream_id := none, retry := none }).1.store 0 "room"
            { event_type := "message", data := .Raw "B", id := none,
              stream_id := none, retry := none }).1 "room"
      = [("0-1", { event_type := "message", data := .Raw "B", id := none,
                   stream_id := some "0-1", retry := none })] := by
  decide

/-- C1 amended: `get_messages_after(ch, Some x)` returns the stored entries
strictly after the first retained entry whose stream id EQUALS x, in stored
order — for retained entries E1…En with ids id1<…<idn and x = id_k this is
exactly \x7bE_(k+1),…,E_n\x7d — but when x does not occur in the retained
log (in particular when x was trimmed out), it returns the empty list; a
`None` cursor also returns empty. -/
theorem c1_get_messages_after_amended (st : MemoryStorage) (ch aid : String) :
    (∀ (pre suf : List (String × SseEvent)) (e : SseEvent),
        alookup st.streams ch = some (pre ++ (aid, e) :: suf) →
        (∀ p ∈ pre, p.1 ≠ aid) →
        st.get_messages_after ch (some aid) = suf.map Prod.snd)
    ∧ (∀ entries, alookup st.streams ch = some entries →
        (∀ p ∈ entries, p.1 ≠ aid) →
        st.get_messages_after ch (some aid) = [])
    ∧ st.get_messages_after ch none = [] := by
  refine ⟨fun pre suf e hl hp => ?_, fun entries hl hp => ?_, rfl⟩
  · simp [MemoryStorage.get_messages_after, hl, afterMatch_append_match aid pre suf e hp]
  · simp [MemoryStorage.get_messages_after, hl, afterMatch_not_mem aid entries hp]

/-- C1 witness: a three-entry log queried at its first id returns exactly
the two newer events. -/
theorem c1_get_messages_after_amended_witness :
    MemoryStorage.get_messages_after
        { streams :=
            [("room",
              [("0-0", { event_type := "message", data := .Raw "A", id := none,
                         stream_id := some "0-0", retry := none }),
               ("0-1", { event_type := "message", data := .Raw "B", id := none,
                         stream_id := some "0-1", retry := none }),
               ("0-2", { event_type := "message", data := .Raw "C", id := none,
                         stream_id := some "0-2", retry := none })])]
          counter := 3, max_per_channel := 100 } "room" (some "0-0")
      = [{ event_type := "message", data := .Raw "B", id := none,
           stream_id := some "0-1", retry := none },
         { event_type := "message", data := .Raw "C", id := none,
           stream_id := some "0-2", retry := none }] :=
  (c1_get_messages_after_amended
      { streams :=
          [("room",
            [("0-0", { event_type := "message", data := .Raw "A", id := none,
                       stream_id := some "0-0", retry := none }),
             ("0-1", { event_type := "message", data := .Raw "B", id := none,
                       stream_id := some "0-1", retry := none }),
             ("0-2", { event_type := "message", data := .Raw "C", id := none,
                       stream_id := some "0-2", retry := none })])]
        counter := 3, max_per_channel := 100 } "room" "0-0").1 []
    [("0-1", { event_type := "message", data := .Raw "B", id := none,
               stream_id := some "0-1", retry := none }),
     ("0-2", { event_type := "message", data := .Raw "C", id := none,
               stream_id := some "0-2", retry := none })]
    { event_type := "message", data := .Raw "A", id := none,
      stream_id := some "0-0", retry := none }
    (by decide) (by decide)

/-! ## C3 — replay cap -/

theorem trimLog_eq_lastN (max : Nat) (v : List (String × SseEvent)) :
    MemoryStorage.trimLog max v = lastN max v := by
  by_cases h : v.length > max
  · simp [MemoryStorage.trimLog, lastN, h]
  · have h0 : v.length - max = 0 := Nat.sub_eq_zero_of_le (Nat.le_of_not_lt h)
    simp [MemoryStorage.trimLog, lastN, h, h0]

theorem lastN_cons {α : Type} (n : Nat) (x : α) (xs : List α) :
    lastN n (x :: xs) = if xs.length < n then x :: xs else lastN n xs := by
  by_cases h : xs.length < n
  · simp only [lastN, List.length_cons, if_pos h]
    rw [show xs.length + 1 - n = 0 by omega, List.drop_zero]
  · simp only [lastN, List.length_cons, if_neg h]
    rw [show xs.length + 1 - n = (xs.length - n) + 1 by omega, List.drop_succ_cons]

theorem lastN_append_lastN {α : Type} (n : Nat) (xs ys : List α) :
    lastN n (lastN n xs ++ ys) = lastN n (xs ++ ys) := by
  induction xs with
  | nil => simp [lastN]
  | cons x xs ih =>
    by_cases h : xs.length < n
    · rw [lastN_cons, if_pos h]
    · rw [lastN_cons, if_neg h, ih, List.cons_append, lastN_cons,
        if_neg fun hlt => h (Nat.lt_of_le_of_lt (by simp) hlt)]

theorem lastN_of_le {α : Type} (n : Nat) (l : List α) (h : l.length ≤ n) :
    lastN n l = l := by
  simp [lastN, Nat.sub_eq_zero_of_le h]

theorem lastN_length_le {α : Type} (n : Nat) (l : List α) : (lastN n l).length ≤ n := by
  simp [lastN]
  omega

theorem store_channelLog (ts : Nat) (st : MemoryStorage) (ch : String) (e : SseEvent) :
    MemoryStorage.channelLog (st.store ts ch e).1 ch
      = lastN st.max_per_channel
          (MemoryStorage.channelLog st ch
            ++ [(formatId ts st.counter, { e with stream_id := some (formatId ts st.counter) })]) := by
  rw [← trimLog_eq_lastN]
  simp [MemoryStorage.store, MemoryStorage.generate_stream_id, MemoryStorage.channelLog,
    alookup_aset]

theorem store_counter (ts : Nat) (st : MemoryStorage) (ch : String) (e : SseEvent) :
    (st.store ts ch e).1.counter = st.counter + 1 := rfl

theorem store_max (ts : Nat) (st : MemoryStorage) (ch : String) (e : SseEvent) :
    (st.store ts ch e).1.max_per_channel = st.max_per_channel := rfl

theorem storeMany_channelLog (ch : String) (inputs : List (Nat × SseEvent))
    (st : MemoryStorage) (hlen : (MemoryStorage.channelLog st ch).length ≤ st.max_per_channel) :
    MemoryStorage.channelLog (MemoryStorage.storeMany ch inputs st) ch
      = lastN st.max_per_channel
          (MemoryStorage.channelLog st ch ++ MemoryStorage.genEntries inputs st.counter) := by
  induction inputs generalizing st with
  | nil =>
    simp [MemoryStorage.storeMany, MemoryStorage.genEntries, lastN_of_le _ _ hlen]
  | cons p rest ih =>
    obtain ⟨ts, e⟩ := p
    rw [show MemoryStorage.storeMany ch ((ts, e) :: rest) st
        = MemoryStorage.storeMany ch rest (st.store ts ch e).1 from rfl]
    rw [ih (st.store ts ch e).1
      (by rw [store_channelLog, store_max]; exact lastN_length_le _ _)]
    rw [store_channelLog, store_counter, store_max, lastN_append_lastN]
    simp [MemoryStorage.genEntries]

theorem genEntries_length (inputs : List (Nat × SseEvent)) (c : Nat) :
    (MemoryStorage.genEntries inputs c).length = inputs.length := by
  induction inputs generalizing c with
  | nil => rfl
  | cons p rest ih =>
    obtain ⟨ts, e⟩ := p
    simp [MemoryStorage.genEntries, ih]

/-- C3: starting from an empty store of capacity N, after a batch of M > N
`store` calls on one channel the retained log is exactly the last N of the
M generated `(stream_id, event)` entries, in insertion order; moreover every
single `store` call leaves the touched channel's log at length ≤ its
capacity. -/
theorem c3_replay_cap (N : Nat) (ch : String) (inputs : List (Nat × SseEvent))
    (_hM : N < inputs.length) :
    MemoryStorage.channelLog (MemoryStorage.storeMany ch inputs (MemoryStorage.new N)) ch
      = (MemoryStorage.genEntries inputs 0).drop (inputs.length - N)
    ∧ ∀ (st : MemoryStorage) (ts : Nat) (e : SseEvent),
        (MemoryStorage.channelLog (st.store ts ch e).1 ch).length ≤ st.max_per_channel := by
  constructor
  · rw [storeMany_channelLog ch inputs (MemoryStorage.new N)
      (by simp [MemoryStorage.channelLog, MemoryStorage.new, alookup])]
    show lastN N ([] ++ MemoryStorage.genEntries inputs 0)
      = (MemoryStorage.genEntries inputs 0).drop (inputs.length - N)
    rw [List.nil_append, lastN, genEntries_length]
  · intro st ts e
    rw [store_channelLog]
    exact lastN_length_le _ _

/-- C3 witness: capacity 1, two stores; the retained log is the last entry. -/
theorem c3_replay_cap_witness :
    MemoryStorage.channelLog
        (MemoryStorage.storeMany "room"
          [(0, { event_type := "message", data := .Raw "A", id := none,
                 stream_id := none, retry := none }),
           (0, { event_type := "message", data := .Raw "B", id := none,
                 stream_id := none, retry := none })]
          (MemoryStorage.new 1)) "room"
      = (MemoryStorage.genEntries
          [(0, { event_type := "message", data := .Raw "A", id := none,
                 stream_id := none, retry := none }),
           (0, { event_type := "message", data := .Raw "B", id := none,
                 stream_id := none, retry := none })] 0).drop 1 :=
  (c3_replay_cap 1 "room"
    [(0, { event_type := "message", data := .Raw "A", id := none,
           stream_id := none, retry := none }),
     (0, { event_type := "message", data := .Raw "B", id := none,
           stream_id := none, retry := none })] (by decide)).1

/-! ## C4 — stream-id generation and monotonicity -/

theorem charVal_digitChar (d : Nat) (h : d < 10) : charVal (digitChar d) = some d := by
  interval_cases d <;> decide

theorem digitChar_ne_dash (d : Nat) : digitChar d ≠ '-' := by
  have h : d % 10 < 10 := Nat.mod_lt _ (by omega)
  unfold digitChar
  set m := d % 10 with hm
  clear hm
  interval_cases m <;> decide

theorem parseDigitsAux_append (xs ys : List Char) (acc : Nat) :
    parseDigitsAux acc (xs ++ ys)
      = match parseDigitsAux acc xs with
        | some a => parseDigitsAux a ys
        | none => none := by
  induction xs generalizing acc with
  | nil => rfl
  | cons c r ih =>
    rw [List.cons_append]
    cases h : charVal c <;> simp [parseDigitsAux, h, ih]

theorem natCharsAux_correct (fuel : Nat) :
    ∀ n acc, n < 10 ^ fuel →
      parseDigitsAux acc (natCharsAux fuel n)
        = some (acc * 10 ^ (natCharsAux fuel n).length + n) := by
  induction fuel with
  | zero =>
    intro n acc hn
    have : n = 0 := by omega
    subst this
    simp [natCharsAux, parseDigitsAux]
  | succ fuel ih =>
    intro n acc hn
    by_cases h : n < 10
    · rw [show natCharsAux (fuel + 1) n = [digitChar n] by simp [natCharsAux, h]]
      simp [parseDigitsAux, charVal_digitChar n h]
    · rw [show natCharsAux (fuel + 1) n
          = natCharsAux fuel (n / 10) ++ [digitChar (n % 10)] by simp [natCharsAux, h]]
      have hdiv : n / 10 < 10 ^ fuel := by
        rw [Nat.div_lt_iff_lt_mul (by omega)]
        calc n < 10 ^ (fuel + 1) := hn
          _ = 10 ^ fuel * 10 := by rw [pow_succ]
      rw [parseDigitsAux_append, ih (n / 10) acc hdiv]
      have hm : n % 10 < 10 := Nat.mod_lt n (by omega)
      simp only [parseDigitsAux, charVal_digitChar (n % 10) hm, List.length_append,
        List.length_singleton]
      congr 1
      calc (acc * 10 ^ (natCharsAux fuel (n / 10)).length + n / 10) * 10 + n % 10
          = acc * (10 ^ (natCharsAux fuel (n / 10)).length * 10)
              + (10 * (n / 10) + n % 10) := by ring
        _ = acc * 10 ^ ((natCharsAux fuel (n / 10)).length + 1) + n := by
            rw [Nat.div_add_mod, pow_succ]

theorem natChars_ne_nil (n : Nat) : natChars n ≠ [] := by
  unfold natChars natCharsAux
  split <;> simp

theorem parseDigits_natChars (n : Nat) : parseDigits (natChars n) = some n := by
  have hfuel : n < 10 ^ (n + 1) := by
    calc n < 10 ^ n := Nat.lt_pow_self (by omega) n
      _ ≤ 10 ^ (n + 1) := Nat.pow_le_pow_right (by omega) (Nat.le_succ n)
  have hcorrect := natCharsAux_correct (n + 1) n 0 hfuel
  have hstep : parseDigits (natChars n) = parseDigitsAux 0 (natChars n) := by
    cases hl : natChars n with
    | nil => exact absurd hl (natChars_ne_nil n)
    | cons c r => rfl
  rw [hstep]
  show parseDigitsAux 0 (natCharsAux (n + 1) n) = some n
  rw [hcorrect]
  simp

theorem natChars_no_dash (n : Nat) : ∀ c ∈ natChars n, c ≠ '-' := by
  have haux : ∀ fuel m, ∀ c ∈ natCharsAux fuel m, c ≠ '-' := by
    intro fuel
    induction fuel with
    | zero => intro m c hc; simp [natCharsAux] at hc
    | succ fuel ih =>
      intro m c hc
      by_cases h : m < 10
      · rw [show natCharsAux (fuel + 1) m = [digitChar m] by simp [natCharsAux, h]] at hc
        simp at hc
        exact hc ▸ digitChar_ne_dash m
      · rw [show natCharsAux (fuel + 1) m
            = natCharsAux fuel (m / 10) ++ [digitChar (m % 10)] by simp [natCharsAux, h]] at hc
        rcases List.mem_append.mp hc with h1 | h1
        · exact ih (m / 10) c h1
        · simp at h1
          exact h1 ▸ digitChar_ne_dash (m % 10)
  exact haux (n + 1) n

theorem splitDash_append (xs ys : List Char) (h : ∀ c ∈ xs, c ≠ '-') :
    splitDash (xs ++ '-' :: ys) = some (xs, ys) := by
  induction xs with
  | nil => simp [splitDash]
  | cons c r ih =>
    have hc : ¬ c = '-' := h c (List.mem_cons_self _ _)
    rw [List.cons_append]
    simp [splitDash, hc, ih fun q hq => h q (List.mem_cons_of_mem _ hq)]

theorem parseStreamId_formatId (ts seq : Nat) :
    parseStreamId (formatId ts seq) = some (ts, seq) := by
  have hdata : (formatId ts seq).data = natChars ts ++ '-' :: natChars seq := rfl
  rw [parseStreamId, hdata, splitDash_append _ _ (natChars_no_dash ts)]
  simp [parseDigits_natChars]

/-- C4: both stores' id generators start their process-wide counter at 0,
increment it on every call, and format the id as `"<millis>-<seq>"`; under
the spec's pairwise unsigned comparison of (timestamp, sequence), an id
generated with a later (strictly larger) sequence value and a
non-decreasing wall clock compares strictly greater than an earlier one. -/
theorem c4_stream_id_monotonic :
    (∀ N, (MemoryStorage.new N).counter = 0)
    ∧ (∀ (ts : Nat) (st : MemoryStorage),
        (st.generate_stream_id ts).2.counter = st.counter + 1
        ∧ (st.generate_stream_id ts).1 = formatId ts st.counter)
    ∧ (∀ ts c, RedisStorage.generate_id ts c = (formatId ts c, c + 1))
    ∧ ∀ ts1 ts2 s1 s2 : Nat, ts1 ≤ ts2 → s1 < s2 →
        streamIdLtB (formatId ts1 s1) (formatId ts2 s2) = true := by
  refine ⟨fun N => rfl, fun ts st => ⟨rfl, rfl⟩, fun ts c => rfl, ?_⟩
  intro ts1 ts2 s1 s2 hts hs
  rw [streamIdLtB, parseStreamId_formatId, parseStreamId_formatId]
  show pairLtB (ts1, s1) (ts2, s2) = true
  simp [pairLtB]
  omega

/-- C4 witness: two ids generated at the same millisecond with increasing
sequence numbers compare strictly increasing. -/
theorem c4_stream_id_monotonic_witness :
    streamIdLtB (formatId 1700000000000 0) (formatId 1700000000000 1) = true :=
  c4_stream_id_monotonic.2.2.2 1700000000000 1700000000000 0 1 (Nat.le_refl _) (by decide)

/-! ## C5 — registry mirror invariant preservation -/

theorem chanIds_register (st : ConnectionManager) (ch cid x : String) :
    chanIds (Crates.register st ch cid) x
      = if x = ch then chanIds st ch ++ [cid] else chanIds st x := by
  by_cases h : x = ch <;> simp [Crates.register, chanIds, alookup_aset, h]

theorem register_connections (st : ConnectionManager) (ch cid q : String) :
    alookup (Crates.register st ch cid).connections q
      = if q = cid then some { channel_id := ch, active := true, queue := [] }
        else alookup st.connections q := by
  simp [Crates.register, alookup_aset]

theorem mirrorInv_register (st : ConnectionManager) (hinv : mirrorInv st)
    (ch cid : String) (hfresh : alookup st.connections cid = none) :
    mirrorInv (Crates.register st ch cid) := by
  obtain ⟨hiff, hnd⟩ := hinv
  have hnotin : ∀ x, cid ∉ chanIds st x := by
    intro x hx
    obtain ⟨c, hc, -⟩ := (hiff cid x).1 hx
    rw [hfresh] at hc
    exact Option.noConfusion hc
  constructor
  · intro q x
    rw [chanIds_register, register_connections]
    by_cases hq : q = cid
    · by_cases hx : x = ch
      · rw [if_pos hx, if_pos hq]
        constructor
        · intro _
          exact ⟨_, rfl, hx.symm⟩
        · intro _
          exact List.mem_append.mpr (Or.inr (List.mem_singleton.mpr hq))
      · rw [if_neg hx, if_pos hq]
        constructor
        · intro hin
          exact absurd (hq ▸ hin) (hnotin x)
        · rintro ⟨c, hc, hch⟩
          exfalso
          apply hx
          have hcc := Option.some.inj hc
          rw [← hcc] at hch
          exact hch.symm
    · by_cases hx : x = ch
      · rw [if_pos hx, if_neg hq]
        rw [List.mem_append, List.mem_singleton]
        constructor
        · rintro (hin | hin)
          · obtain ⟨c, hc, hch⟩ := (hiff q ch).1 hin
            exact ⟨c, hc, hch.trans hx.symm⟩
          · exact absurd hin hq
        · rintro ⟨c, hc, hch⟩
          exact Or.inl ((hiff q ch).2 ⟨c, hc, hch.trans hx⟩)
      · rw [if_neg hx, if_neg hq]
        exact hiff q x
  · intro x
    rw [chanIds_register]
    by_cases hx : x = ch
    · rw [if_pos hx, List.nodup_append]
      refine ⟨hnd ch, List.nodup_singleton _, ?_⟩
      intro a ha hb
      rw [List.mem_singleton] at hb
      subst hb
      exact hnotin ch ha
    · rw [if_neg hx]
      exact hnd x

theorem mirrorInv_unregister (st : ConnectionManager) (hinv : mirrorInv st)
    (cid : String) : mirrorInv (Crates.unregister st cid) := by
  obtain ⟨hiff, hnd⟩ := hinv
  cases h : alookup st.connections cid with
  | none =>
    rw [crates_unregister_absent st cid h]
    exact ⟨hiff, hnd⟩
  | some c =>
    have hmem : cid ∈ chanIds st c.channel_id := (hiff cid c.channel_id).2 ⟨c, h, rfl⟩
    cases h2 : alookup st.channel_index c.channel_id with
    | none =>
      exfalso
      rw [chanIds, h2] at hmem
      simp at hmem
    | some ids =>
      have hids : chanIds st c.channel_id = ids := by rw [chanIds, h2]; rfl
      have hcl : ∀ x, chanIds (Crates.unregister st cid) x
          = if x = c.channel_id then ids.filter (fun i => i ≠ cid) else chanIds st x := by
        intro x
        by_cases hx : x = c.channel_id <;>
          simp [Crates.unregister, h, h2, chanIds, alookup_aset, hx]
      have hco : ∀ q, alookup (Crates.unregister st cid).connections q
          = if q = cid then none else alookup st.connections q := by
        intro q
        simp [Crates.unregister, h, h2, alookup_aremove]
      constructor
      · intro q x
        rw [hcl, hco]
        by_cases hq : q = cid
        · rw [if_pos hq]
          constructor
          · intro hqx
            exfalso
            by_cases hx : x = c.channel_id
            · rw [if_pos hx] at hqx
              have h5 := (List.mem_filter.mp hqx).2
              rw [hq] at h5
              simp at h5
            · rw [if_neg hx] at hqx
              obtain ⟨c', hc', hch⟩ := (hiff q x).1 hqx
              rw [hq, h] at hc'
              have hcc : c = c' := Option.some.inj hc'
              exact hx ((hcc ▸ hch : c.channel_id = x).symm ▸ rfl)
          · rintro ⟨c', hc', -⟩
            exact Option.noConfusion hc'
        · rw [if_neg hq]
          by_cases hx : x = c.channel_id
          · subst hx
            rw [if_pos rfl, List.mem_filter]
            constructor
            · rintro ⟨hin, -⟩
              exact (hiff q c.channel_id).1 (hids ▸ hin)
            · intro hex
              refine ⟨hids ▸ (hiff q c.channel_id).2 hex, ?_⟩
              simpa using hq
          · rw [if_neg hx]
            exact hiff q x
      · intro x
        rw [hcl]
        by_cases hx : x = c.channel_id
        · rw [if_pos hx]
          exact (hids ▸ hnd c.channel_id).filter _
        · rw [if_neg hx]
          exact hnd x

theorem mirrorInv_foldl_unregister (l : List String) (st : ConnectionManager)
    (hinv : mirrorInv st) : mirrorInv (l.foldl Crates.unregister st) := by
  induction l generalizing st with
  | nil => exact hinv
  | cons x r ih => exact ih _ (mirrorInv_unregister st hinv x)

theorem mirrorInv_empty :
    mirrorInv { connections := [], channel_index := [] } := by
  constructor
  · intro cid ch
    simp [chanIds, alookup]
  · intro ch
    simp [chanIds, alookup]

/-- C5: the registry mirror invariant — an id is indexed under a channel iff
the main map binds it to a connection on exactly that channel (so no orphan
or duplicated index entries exist) — is preserved by `register` (with a
fresh connection id), by `unregister`, and by `cleanup_dead_connections`. -/
theorem c5_registry_mirror_invariant (st : ConnectionManager) (hinv : mirrorInv st) :
    (∀ ch cid, alookup st.connections cid = none →
        mirrorInv (Crates.register st ch cid))
    ∧ (∀ cid, mirrorInv (Crates.unregister st cid))
    ∧ mirrorInv (Crates.cleanup_dead_connections st) :=
  ⟨fun ch cid hfresh => mirrorInv_register st hinv ch cid hfresh,
   fun cid => mirrorInv_unregister st hinv cid,
   mirrorInv_foldl_unregister _ st hinv⟩

/-- C5 witness: the empty registry satisfies the invariant, and registering
a fresh connection preserves it. -/
theorem c5_registry_mirror_invariant_witness :
    mirrorInv (Crates.register { connections := [], channel_index := [] } "room" "c1") :=
  (c5_registry_mirror_invariant { connections := [], channel_index := [] }
    mirrorInv_empty).1 "room" "c1" (by decide)
